import Mathlib

/-!
Shallow embedding of `src/parser.py` (ast-node-generator-for-seatbelt2).

The Python parser walks a list of tokens with a mutable index and raises
`ParserError` (or a raw `IndexError` from unchecked list indexing) on failure.
We model this with explicit index passing and an `Except PyError` result;
each Python `while` loop becomes a fuel-indexed recursive function, with a
distinguished `outOfFuel` result that we later prove unreachable for the
fuel the top-level driver supplies.

The lexer (`lexer.py`) is an external collaborator and not part of the
repository's source tree; from the parser's usage and spec section 6, a token
is a kind drawn from a fixed enumeration plus a raw lexeme.
-/

namespace Seatbelt

/-- Token kinds, exactly those `parser.py` consumes from the external lexer. -/
inductive TokenType where
  | TYPE
  | IDENTIFIER
  | STRING_LITERAL
  | LEFT_PARENTHESIS
  | RIGHT_PARENTHESIS
  | EQUALS
  | PIPE
  | FUNCTION
  | IMPLEMENT
  | BY_MOVE
  | END_OF_INPUT
deriving DecidableEq

/-- A token: kind plus raw lexeme (string literals keep their quotes). -/
structure Token where
  type_ : Seatbelt.TokenType
  lexeme : String
deriving DecidableEq

/-- The failure modes of the parser.  The first seven mirror the `ParserError`
raise sites of `parser.py` (messages in comments); `indexError` models a raw
Python `IndexError` escaping from `Parser.current`'s unchecked list indexing;
`outOfFuel` is a modelling artifact for the loop fuel, proved unreachable. -/
inductive PyError where
  | duplicateDeclaration      -- "duplicate declaration of pure virtual functions"
  | duplicateImplementation   -- "duplicate implementation"
  | notAllImplemented         -- "not all pure virtual functions are implemented"
  | unexpectedEndOfInput      -- "unexpected end of input"
  | unexpectedTokenType (expected actual : Seatbelt.TokenType) (lexeme : String)
  | unexpectedToken (actual : Seatbelt.TokenType)  -- file-level "unexpected token"
  | postludeNotLast           -- "the postlude must be the last part of the file"
  | indexError
  | outOfFuel
deriving DecidableEq

/-- `Member.__init__`: a data field with name, by-move flag and opaque type text. -/
structure Member where
  name : String
  by_move : Bool
  type_ : String
deriving DecidableEq

/-- `PureVirtualFunction.__init__`: an operation declaration; `none` return
type models Python `None`. -/
structure PureVirtualFunction where
  name : String
  return_type : Option String
deriving DecidableEq

/-- `Implementation.__init__`: a concrete body for one operation. -/
structure Implementation where
  name : String
  body : String
deriving DecidableEq

/-- The validated variant (`PolymorphicType` fields, after `__init__` checks). -/
structure PolymorphicType where
  pure_virtual_functions : List Seatbelt.PureVirtualFunction
  members : List Seatbelt.Member
  implementations : List Seatbelt.Implementation
deriving DecidableEq

/-- `AbstractType`: sub-type dictionary (insertion-ordered, as a Python dict),
shared members and declared operations. -/
structure AbstractType where
  sub_types : List (String × Seatbelt.PolymorphicType)
  members : List Seatbelt.Member
  pure_virtual_functions : List Seatbelt.PureVirtualFunction
deriving DecidableEq

/-- `GeneratorDescription`: the root AST value returned by `parse`. -/
structure GeneratorDescription where
  prelude_ : String
  type_definitions : List (String × String)
  abstract_types : List (String × Seatbelt.AbstractType)
  postlude : String
deriving DecidableEq

/-- Python dict assignment `d[k] = v` on an insertion-ordered dict, modelled on
an association list: an existing key keeps its position but its value is
replaced; a new key is appended. -/
def dictInsert {α : Type} (d : List (String × α)) (k : String) (v : α) :
    List (String × α) :=
  if d.any (fun p => decide (p.1 = k)) then
    d.map (fun p => if p.1 = k then (k, v) else p)
  else
    d ++ [(k, v)]

/-- Python `len(set(names)) != len(names)`: the list holds a duplicate. -/
def hasDuplicate (names : List String) : Bool :=
  decide (names.dedup.length ≠ names.length)

/-- Python `set(a) == set(b)`: the two lists hold the same set of names. -/
def sameNameSet (a b : List String) : Bool :=
  a.all (fun n => decide (n ∈ b)) && b.all (fun n => decide (n ∈ a))

/-- `PolymorphicType.__init__` including its three validation checks, in the
source's order: duplicate declarations, duplicate implementations, then set
equality of declared and implemented names. -/
def mkPolymorphicType (pure_virtual_functions : List Seatbelt.PureVirtualFunction)
    (members : List Seatbelt.Member)
    (implementations : List Seatbelt.Implementation) :
    Except Seatbelt.PyError Seatbelt.PolymorphicType :=
  if hasDuplicate (pure_virtual_functions.map Seatbelt.PureVirtualFunction.name) = true then
    .error .duplicateDeclaration
  else if hasDuplicate (implementations.map Seatbelt.Implementation.name) = true then
    .error .duplicateImplementation
  else if sameNameSet (pure_virtual_functions.map Seatbelt.PureVirtualFunction.name)
      (implementations.map Seatbelt.Implementation.name) = false then
    .error .notAllImplemented
  else
    .ok ⟨pure_virtual_functions, members, implementations⟩

/-- `Parser.current`: `self.tokens[self.index]` — raw list indexing, so an
out-of-bounds position is a Python `IndexError`, not a `ParserError`. -/
def current (tokens : List Seatbelt.Token) (index : Nat) :
    Except Seatbelt.PyError Seatbelt.Token :=
  match tokens.get? index with
  | some t => .ok t
  | none => .error .indexError

/-- `Parser.is_end_of_input`: `self.index >= len(self.tokens) or
self.current().type_ == TokenType.END_OF_INPUT` (short-circuiting `or`, so
`current` is only consulted in bounds). -/
def is_end_of_input (tokens : List Seatbelt.Token) (index : Nat) : Bool :=
  if index ≥ tokens.length then
    true
  else
    match tokens.get? index with
    | some t => decide (t.type_ = Seatbelt.TokenType.END_OF_INPUT)
    | none => false

/-- `Parser.consume`: fail at end of input, fail on a kind mismatch, otherwise
return the token and advance by one. -/
def consume (tokens : List Seatbelt.Token) (index : Nat) (type_ : Seatbelt.TokenType) :
    Except Seatbelt.PyError (Seatbelt.Token × Nat) :=
  if is_end_of_input tokens index = true then
    .error .unexpectedEndOfInput
  else
    match current tokens index with
    | .error e => .error e
    | .ok t =>
      if t.type_ ≠ type_ then
        .error (.unexpectedTokenType type_ t.type_ t.lexeme)
      else
        .ok (t, index + 1)

/-- Python `str.strip()`: drop leading and trailing whitespace characters. -/
def trimChars (cs : List Char) : List Char :=
  ((cs.dropWhile Char.isWhitespace).reverse.dropWhile Char.isWhitespace).reverse

/-- The `lexeme[1:-1].strip()` idiom: drop exactly the first and last
character, then trim surrounding whitespace. -/
def stripInner (s : String) : String :=
  String.mk (trimChars ((s.toList.drop 1).dropLast))

/-- `parse_data_member`: IDENTIFIER, optional BY_MOVE, STRING_LITERAL.  Note
the unchecked `current` call used to test for `by_move`. -/
def parse_data_member (tokens : List Seatbelt.Token) (index : Nat) :
    Except Seatbelt.PyError (Seatbelt.Member × Nat) :=
  match consume tokens index Seatbelt.TokenType.IDENTIFIER with
  | .error e => .error e
  | .ok (member_name, i1) =>
    match current tokens i1 with
    | .error e => .error e
    | .ok cur =>
      let by_move := decide (cur.type_ = Seatbelt.TokenType.BY_MOVE)
      let i2 := if by_move then i1 + 1 else i1
      match consume tokens i2 Seatbelt.TokenType.STRING_LITERAL with
      | .error e => .error e
      | .ok (member_type, i3) =>
        .ok (⟨member_name.lexeme, by_move, stripInner member_type.lexeme⟩, i3)

/-- `parse_implementation`: IMPLEMENT, IDENTIFIER, STRING_LITERAL. -/
def parse_implementation (tokens : List Seatbelt.Token) (index : Nat) :
    Except Seatbelt.PyError (Seatbelt.Implementation × Nat) :=
  match consume tokens index Seatbelt.TokenType.IMPLEMENT with
  | .error e => .error e
  | .ok (_, i1) =>
    match consume tokens i1 Seatbelt.TokenType.IDENTIFIER with
    | .error e => .error e
    | .ok (function_name, i2) =>
      match consume tokens i2 Seatbelt.TokenType.STRING_LITERAL with
      | .error e => .error e
      | .ok (function_body, i3) =>
        .ok (⟨function_name.lexeme, stripInner function_body.lexeme⟩, i3)

/-- The `while True` body loop of `parse_subtype`: members and implementations
freely interleaved, dispatch on the current token's kind, `break` otherwise. -/
def subtypeItemsLoop (tokens : List Seatbelt.Token) :
    Nat → Nat → List Seatbelt.Member → List Seatbelt.Implementation →
    Except Seatbelt.PyError (List Seatbelt.Member × List Seatbelt.Implementation × Nat)
  | 0, _, _, _ => .error .outOfFuel
  | fuel + 1, index, members, implementations =>
    match current tokens index with
    | .error e => .error e
    | .ok cur =>
      if cur.type_ = Seatbelt.TokenType.IDENTIFIER then
        match parse_data_member tokens index with
        | .error e => .error e
        | .ok (m, j) => subtypeItemsLoop tokens fuel j (members ++ [m]) implementations
      else if cur.type_ = Seatbelt.TokenType.IMPLEMENT then
        match parse_implementation tokens index with
        | .error e => .error e
        | .ok (impl, j) => subtypeItemsLoop tokens fuel j members (implementations ++ [impl])
      else
        .ok (members, implementations, index)

/-- `parse_subtype`: IDENTIFIER, "(", interleaved members/implementations, ")". -/
def parse_subtype (tokens : List Seatbelt.Token) (index : Nat) :
    Except Seatbelt.PyError ((String × List Seatbelt.Member × List Seatbelt.Implementation) × Nat) :=
  match consume tokens index Seatbelt.TokenType.IDENTIFIER with
  | .error e => .error e
  | .ok (identifier, i1) =>
    match consume tokens i1 Seatbelt.TokenType.LEFT_PARENTHESIS with
    | .error e => .error e
    | .ok (_, i2) =>
      match subtypeItemsLoop tokens (tokens.length + 1) i2 [] [] with
      | .error e => .error e
      | .ok (members, implementations, i3) =>
        match consume tokens i3 Seatbelt.TokenType.RIGHT_PARENTHESIS with
        | .error e => .error e
        | .ok (_, i4) => .ok ((identifier.lexeme, members, implementations), i4)

/-- The shared-members loop of the abstract-type header
(`while parser.current().type_ == TokenType.IDENTIFIER`). -/
def baseMembersLoop (tokens : List Seatbelt.Token) :
    Nat → Nat → List Seatbelt.Member →
    Except Seatbelt.PyError (List Seatbelt.Member × Nat)
  | 0, _, _ => .error .outOfFuel
  | fuel + 1, index, members =>
    match current tokens index with
    | .error e => .error e
    | .ok cur =>
      if cur.type_ = Seatbelt.TokenType.IDENTIFIER then
        match parse_data_member tokens index with
        | .error e => .error e
        | .ok (m, j) => baseMembersLoop tokens fuel j (members ++ [m])
      else
        .ok (members, index)

/-- The operation-declarations loop of the abstract-type header
(`while parser.current().type_ == TokenType.FUNCTION`), including the
empty-return-type-to-`None` normalisation. -/
def functionsLoop (tokens : List Seatbelt.Token) :
    Nat → Nat → List Seatbelt.PureVirtualFunction →
    Except Seatbelt.PyError (List Seatbelt.PureVirtualFunction × Nat)
  | 0, _, _ => .error .outOfFuel
  | fuel + 1, index, functions =>
    match current tokens index with
    | .error e => .error e
    | .ok cur =>
      if cur.type_ = Seatbelt.TokenType.FUNCTION then
        match consume tokens index Seatbelt.TokenType.FUNCTION with
        | .error e => .error e
        | .ok (_, i1) =>
          match consume tokens i1 Seatbelt.TokenType.IDENTIFIER with
          | .error e => .error e
          | .ok (function_identifier, i2) =>
            match consume tokens i2 Seatbelt.TokenType.STRING_LITERAL with
            | .error e => .error e
            | .ok (rt, i3) =>
              let return_type_string := stripInner rt.lexeme
              let function_return_type : Option String :=
                if return_type_string.length > 0 then some return_type_string else none
              functionsLoop tokens fuel i3
                (functions ++ [⟨function_identifier.lexeme, function_return_type⟩])
      else
        .ok (functions, index)

/-- The pipe-separated variants loop (`while parser.current().type_ ==
TokenType.PIPE`): each variant is parsed, validated by the `PolymorphicType`
constructor and stored under its name in the sub-type dict. -/
def pipeLoop (tokens : List Seatbelt.Token) (functions : List Seatbelt.PureVirtualFunction) :
    Nat → Nat → List (String × Seatbelt.PolymorphicType) →
    Except Seatbelt.PyError (List (String × Seatbelt.PolymorphicType) × Nat)
  | 0, _, _ => .error .outOfFuel
  | fuel + 1, index, sub_types =>
    match current tokens index with
    | .error e => .error e
    | .ok cur =>
      if cur.type_ = Seatbelt.TokenType.PIPE then
        match parse_subtype tokens (index + 1) with
        | .error e => .error e
        | .ok ((name, members, implementations), i1) =>
          match mkPolymorphicType functions members implementations with
          | .error e => .error e
          | .ok polymorphic_type =>
            pipeLoop tokens functions fuel i1 (dictInsert sub_types name polymorphic_type)
      else
        .ok (sub_types, index)

/-- The file-level dispatch loop of `parse` (lines 121-161): `type`
definitions, abstract-type definitions, or a postlude that breaks the loop.
Returns the accumulated type definitions, abstract types, the postlude text
(empty unless a postlude token broke the loop) and the final index. -/
def fileLoop (tokens : List Seatbelt.Token) :
    Nat → Nat → List (String × String) → List (String × Seatbelt.AbstractType) →
    Except Seatbelt.PyError
      (List (String × String) × List (String × Seatbelt.AbstractType) × String × Nat)
  | 0, _, _, _ => .error .outOfFuel
  | fuel + 1, index, type_definitions, polymorphic_types =>
    if is_end_of_input tokens index = true then
      .ok (type_definitions, polymorphic_types, "", index)
    else
      match current tokens index with
      | .error e => .error e
      | .ok cur =>
        match cur.type_ with
        | .TYPE =>
          match consume tokens (index + 1) Seatbelt.TokenType.IDENTIFIER with
          | .error e => .error e
          | .ok (identifier, i1) =>
            match consume tokens i1 Seatbelt.TokenType.STRING_LITERAL with
            | .error e => .error e
            | .ok (contents, i2) =>
              fileLoop tokens fuel i2
                (type_definitions ++ [(identifier.lexeme, stripInner contents.lexeme)])
                polymorphic_types
        | .IDENTIFIER =>
          match consume tokens index Seatbelt.TokenType.IDENTIFIER with
          | .error e => .error e
          | .ok (identifier, i1) =>
            match consume tokens i1 Seatbelt.TokenType.LEFT_PARENTHESIS with
            | .error e => .error e
            | .ok (_, i2) =>
              match baseMembersLoop tokens (tokens.length + 1) i2 [] with
              | .error e => .error e
              | .ok (base_type_members, i3) =>
                match functionsLoop tokens (tokens.length + 1) i3 [] with
                | .error e => .error e
                | .ok (functions, i4) =>
                  match consume tokens i4 Seatbelt.TokenType.RIGHT_PARENTHESIS with
                  | .error e => .error e
                  | .ok (_, i5) =>
                    match consume tokens i5 Seatbelt.TokenType.EQUALS with
                    | .error e => .error e
                    | .ok (_, i6) =>
                      match parse_subtype tokens i6 with
                      | .error e => .error e
                      | .ok ((name, members, implementations), i7) =>
                        match mkPolymorphicType functions members implementations with
                        | .error e => .error e
                        | .ok polymorphic_type =>
                          match pipeLoop tokens functions (tokens.length + 1) i7
                              (dictInsert [] name polymorphic_type) with
                          | .error e => .error e
                          | .ok (sub_types, i8) =>
                            fileLoop tokens fuel i8 type_definitions
                              (dictInsert polymorphic_types identifier.lexeme
                                ⟨sub_types, base_type_members, functions⟩)
        | .STRING_LITERAL =>
          .ok (type_definitions, polymorphic_types, stripInner cur.lexeme, index + 1)
        | other => .error (.unexpectedToken other)

/-- `parse` (lines 111-165): optional prelude, the file-level loop, and the
trailing-content-after-postlude check.  Note the unchecked `current` call used
to test for a prelude before any end-of-input check. -/
def parse (tokens : List Seatbelt.Token) :
    Except Seatbelt.PyError Seatbelt.GeneratorDescription :=
  match current tokens 0 with
  | .error e => .error e
  | .ok first =>
    let (prelude_, start) :=
      if first.type_ = Seatbelt.TokenType.STRING_LITERAL then
        (stripInner first.lexeme, 1)
      else
        ("", 0)
    match fileLoop tokens (tokens.length + 1) start [] [] with
    | .error e => .error e
    | .ok (type_definitions, polymorphic_types, postlude, i1) =>
      if is_end_of_input tokens i1 = false then
        .error .postludeNotLast
      else
        .ok ⟨prelude_, type_definitions, polymorphic_types, postlude⟩

/-- The spec's variant invariant: the set of implementation names equals the
set of the owning abstract type's operation-declaration names. -/
def implementsAllOps (pt : Seatbelt.PolymorphicType) : Prop :=
  ∀ n, n ∈ pt.implementations.map Seatbelt.Implementation.name ↔
       n ∈ pt.pure_virtual_functions.map Seatbelt.PureVirtualFunction.name

/-- Token sequence for `Shape ( function area "d" function area "d" ) = )`:
two operation declarations named `area`, then a malformed first variant. -/
def dupDeclMalformedVariantTokens : List Seatbelt.Token :=
  [⟨.IDENTIFIER, "Shape"⟩, ⟨.LEFT_PARENTHESIS, "("⟩,
   ⟨.FUNCTION, "function"⟩, ⟨.IDENTIFIER, "area"⟩, ⟨.STRING_LITERAL, "\"d\""⟩,
   ⟨.FUNCTION, "function"⟩, ⟨.IDENTIFIER, "area"⟩, ⟨.STRING_LITERAL, "\"d\""⟩,
   ⟨.RIGHT_PARENTHESIS, ")"⟩, ⟨.EQUALS, "="⟩, ⟨.RIGHT_PARENTHESIS, ")"⟩,
   ⟨.END_OF_INPUT, ""⟩]

/-- Token sequence for `Shape ( function area "d" function area "d" ) = V ( )`:
two operation declarations named `area`, then a well-formed variant. -/
def dupDeclGoodVariantTokens : List Seatbelt.Token :=
  [⟨.IDENTIFIER, "Shape"⟩, ⟨.LEFT_PARENTHESIS, "("⟩,
   ⟨.FUNCTION, "function"⟩, ⟨.IDENTIFIER, "area"⟩, ⟨.STRING_LITERAL, "\"d\""⟩,
   ⟨.FUNCTION, "function"⟩, ⟨.IDENTIFIER, "area"⟩, ⟨.STRING_LITERAL, "\"d\""⟩,
   ⟨.RIGHT_PARENTHESIS, ")"⟩, ⟨.EQUALS, "="⟩,
   ⟨.IDENTIFIER, "V"⟩, ⟨.LEFT_PARENTHESIS, "("⟩, ⟨.RIGHT_PARENTHESIS, ")"⟩,
   ⟨.END_OF_INPUT, ""⟩]

/-- Token sequence for `A ( ) = V ( x "t" ) | V ( )`: two variants with the
same name `V`, the first with a member, the second without. -/
def dupVariantTokens : List Seatbelt.Token :=
  [⟨.IDENTIFIER, "A"⟩, ⟨.LEFT_PARENTHESIS, "("⟩, ⟨.RIGHT_PARENTHESIS, ")"⟩, ⟨.EQUALS, "="⟩,
   ⟨.IDENTIFIER, "V"⟩, ⟨.LEFT_PARENTHESIS, "("⟩, ⟨.IDENTIFIER, "x"⟩, ⟨.STRING_LITERAL, "\"t\""⟩,
   ⟨.RIGHT_PARENTHESIS, ")"⟩, ⟨.PIPE, "|"⟩,
   ⟨.IDENTIFIER, "V"⟩, ⟨.LEFT_PARENTHESIS, "("⟩, ⟨.RIGHT_PARENTHESIS, ")"⟩,
   ⟨.END_OF_INPUT, ""⟩]

/-- A multi-entry token sequence: prelude, two type definitions, an abstract
type `S` with two shared members, two operations and two variants, a second
abstract type `S2`, and a postlude. -/
def multiEntryTokens : List Seatbelt.Token :=
  [⟨.STRING_LITERAL, "\"p\""⟩,
   ⟨.TYPE, "type"⟩, ⟨.IDENTIFIER, "T1"⟩, ⟨.STRING_LITERAL, "\"a\""⟩,
   ⟨.TYPE, "type"⟩, ⟨.IDENTIFIER, "T2"⟩, ⟨.STRING_LITERAL, "\"b\""⟩,
   ⟨.IDENTIFIER, "S"⟩, ⟨.LEFT_PARENTHESIS, "("⟩,
   ⟨.IDENTIFIER, "m1"⟩, ⟨.STRING_LITERAL, "\"t1\""⟩,
   ⟨.IDENTIFIER, "m2"⟩, ⟨.BY_MOVE, "by_move"⟩, ⟨.STRING_LITERAL, "\"t2\""⟩,
   ⟨.FUNCTION, "function"⟩, ⟨.IDENTIFIER, "f1"⟩, ⟨.STRING_LITERAL, "\"r1\""⟩,
   ⟨.FUNCTION, "function"⟩, ⟨.IDENTIFIER, "f2"⟩, ⟨.STRING_LITERAL, "\"\""⟩,
   ⟨.RIGHT_PARENTHESIS, ")"⟩, ⟨.EQUALS, "="⟩,
   ⟨.IDENTIFIER, "V1"⟩, ⟨.LEFT_PARENTHESIS, "("⟩,
   ⟨.IDENTIFIER, "w"⟩, ⟨.STRING_LITERAL, "\"wt\""⟩,
   ⟨.IMPLEMENT, "implement"⟩, ⟨.IDENTIFIER, "f1"⟩, ⟨.STRING_LITERAL, "\"b1\""⟩,
   ⟨.IMPLEMENT, "implement"⟩, ⟨.IDENTIFIER, "f2"⟩, ⟨.STRING_LITERAL, "\"b2\""⟩,
   ⟨.RIGHT_PARENTHESIS, ")"⟩,
   ⟨.PIPE, "|"⟩,
   ⟨.IDENTIFIER, "V2"⟩, ⟨.LEFT_PARENTHESIS, "("⟩,
   ⟨.IMPLEMENT, "implement"⟩, ⟨.IDENTIFIER, "f2"⟩, ⟨.STRING_LITERAL, "\"b3\""⟩,
   ⟨.IMPLEMENT, "implement"⟩, ⟨.IDENTIFIER, "f1"⟩, ⟨.STRING_LITERAL, "\"b4\""⟩,
   ⟨.RIGHT_PARENTHESIS, ")"⟩,
   ⟨.IDENTIFIER, "S2"⟩, ⟨.LEFT_PARENTHESIS, "("⟩, ⟨.RIGHT_PARENTHESIS, ")"⟩, ⟨.EQUALS, "="⟩,
   ⟨.IDENTIFIER, "W"⟩, ⟨.LEFT_PARENTHESIS, "("⟩, ⟨.RIGHT_PARENTHESIS, ")"⟩,
   ⟨.STRING_LITERAL, "\"q\""⟩,
   ⟨.END_OF_INPUT, ""⟩]

end Seatbelt

namespace Seatbelt

/-! ### Basic cursor lemmas -/

theorem eoi_false_lt {tokens : List Seatbelt.Token} {index : Nat}
    (h : is_end_of_input tokens index = false) : index < tokens.length := by
  unfold is_end_of_input at h
  split at h
  · cases h
  · rename_i hge
    omega

theorem current_error_eq {tokens : List Seatbelt.Token} {index : Nat} {e : Seatbelt.PyError}
    (h : current tokens index = .error e) : e = .indexError := by
  unfold current at h
  split at h
  · cases h
  · cases h
    rfl

theorem current_ok_lt {tokens : List Seatbelt.Token} {index : Nat} {t : Seatbelt.Token}
    (h : current tokens index = .ok t) : index < tokens.length := by
  unfold current at h
  split at h
  · rename_i hg
    by_contra hlen
    rw [List.get?_eq_none.2 (by omega)] at hg
    cases hg
  · cases h

theorem consume_error_ne {tokens : List Seatbelt.Token} {index : Nat} {ty : Seatbelt.TokenType}
    {e : Seatbelt.PyError} (h : consume tokens index ty = .error e) :
    e ≠ .outOfFuel := by
  unfold consume at h
  split at h
  · cases h
    simp
  · split at h
    · rename_i hc
      cases h
      have := current_error_eq hc
      simp [this]
    · split at h
      · cases h
        simp
      · cases h

theorem consume_ok {tokens : List Seatbelt.Token} {index : Nat} {ty : Seatbelt.TokenType}
    {tok : Seatbelt.Token} {j : Nat} (h : consume tokens index ty = .ok (tok, j)) :
    j = index + 1 ∧ index < tokens.length := by
  unfold consume at h
  split at h
  · cases h
  · rename_i heoi
    split at h
    · cases h
    · split at h
      · cases h
      · cases h
        exact ⟨rfl, eoi_false_lt (eq_false_of_ne_true heoi)⟩

/-! ### `parse_data_member` and `parse_implementation` -/

theorem parse_data_member_error_ne {tokens : List Seatbelt.Token} {index : Nat}
    {e : Seatbelt.PyError} (h : parse_data_member tokens index = .error e) :
    e ≠ .outOfFuel := by
  unfold parse_data_member at h
  split at h
  · cases h
    rename_i hc
    exact consume_error_ne hc
  · split at h
    · cases h
      rename_i hc
      have := current_error_eq hc
      simp [this]
    · dsimp only at h
      split at h
      · cases h
        rename_i hc
        exact consume_error_ne hc
      · cases h

theorem parse_data_member_ok {tokens : List Seatbelt.Token} {index : Nat}
    {m : Seatbelt.Member} {j : Nat} (h : parse_data_member tokens index = .ok (m, j)) :
    index < j := by
  unfold parse_data_member at h
  split at h
  · cases h
  · rename_i hc1
    split at h
    · cases h
    · dsimp only at h
      split at h
      · cases h
      · rename_i hc3
        cases h
        obtain ⟨h1, -⟩ := consume_ok hc1
        obtain ⟨h3, -⟩ := consume_ok hc3
        subst h1
        subst h3
        split <;> omega

theorem parse_implementation_error_ne {tokens : List Seatbelt.Token} {index : Nat}
    {e : Seatbelt.PyError} (h : parse_implementation tokens index = .error e) :
    e ≠ .outOfFuel := by
  unfold parse_implementation at h
  split at h
  · cases h
    rename_i hc
    exact consume_error_ne hc
  · split at h
    · cases h
      rename_i hc
      exact consume_error_ne hc
    · split at h
      · cases h
        rename_i hc
        exact consume_error_ne hc
      · cases h

theorem parse_implementation_ok {tokens : List Seatbelt.Token} {index : Nat}
    {impl : Seatbelt.Implementation} {j : Nat}
    (h : parse_implementation tokens index = .ok (impl, j)) : index < j := by
  unfold parse_implementation at h
  split at h
  · cases h
  · rename_i hc1
    split at h
    · cases h
    · rename_i hc2
      split at h
      · cases h
      · rename_i hc3
        cases h
        obtain ⟨h1, -⟩ := consume_ok hc1
        obtain ⟨h2, -⟩ := consume_ok hc2
        obtain ⟨h3, -⟩ := consume_ok hc3
        omega

end Seatbelt

namespace Seatbelt

/-! ### Loop lemmas: each loop advances the index and never runs out of the
fuel the driver supplies -/

theorem subtypeItemsLoop_ok (tokens : List Seatbelt.Token) :
    ∀ (fuel index members ims ms ims2 j),
      subtypeItemsLoop tokens fuel index members ims = .ok (ms, ims2, j) →
      index ≤ j := by
  intro fuel
  induction fuel with
  | zero =>
    intro index members ims ms ims2 j h
    simp only [subtypeItemsLoop] at h
    cases h
  | succ n ih =>
    intro index members ims ms ims2 j h
    simp only [subtypeItemsLoop] at h
    split at h
    · cases h
    · split at h
      · split at h
        · cases h
        · rename_i hm
          have h1 := parse_data_member_ok hm
          have h2 := ih _ _ _ _ _ _ h
          omega
      · split at h
        · split at h
          · cases h
          · rename_i hm
            have h1 := parse_implementation_ok hm
            have h2 := ih _ _ _ _ _ _ h
            omega
        · cases h
          omega

theorem subtypeItemsLoop_error_ne (tokens : List Seatbelt.Token) :
    ∀ (fuel index members ims e),
      tokens.length - index < fuel →
      subtypeItemsLoop tokens fuel index members ims = .error e →
      e ≠ .outOfFuel := by
  intro fuel
  induction fuel with
  | zero =>
    intro index members ims e hf h
    omega
  | succ n ih =>
    intro index members ims e hf h
    simp only [subtypeItemsLoop] at h
    split at h
    · rename_i hc
      cases h
      have := current_error_eq hc
      simp [this]
    · rename_i cur hc
      split at h
      · split at h
        · rename_i hm
          cases h
          exact parse_data_member_error_ne hm
        · rename_i hm
          have h1 := parse_data_member_ok hm
          have h2 := current_ok_lt hc
          exact ih _ _ _ _ (by omega) h
      · split at h
        · split at h
          · rename_i hm
            cases h
            exact parse_implementation_error_ne hm
          · rename_i hm
            have h1 := parse_implementation_ok hm
            have h2 := current_ok_lt hc
            exact ih _ _ _ _ (by omega) h
        · cases h

theorem parse_subtype_ok {tokens : List Seatbelt.Token} {index : Nat}
    {r : String × List Seatbelt.Member × List Seatbelt.Implementation} {j : Nat}
    (h : parse_subtype tokens index = .ok (r, j)) : index < j := by
  unfold parse_subtype at h
  split at h
  · cases h
  · rename_i hc1
    split at h
    · cases h
    · rename_i hc2
      split at h
      · cases h
      · rename_i hloop
        split at h
        · cases h
        · rename_i hc4
          cases h
          obtain ⟨e1, -⟩ := consume_ok hc1
          obtain ⟨e2, -⟩ := consume_ok hc2
          have e3 := subtypeItemsLoop_ok tokens _ _ _ _ _ _ _ hloop
          obtain ⟨e4, -⟩ := consume_ok hc4
          omega

theorem parse_subtype_error_ne {tokens : List Seatbelt.Token} {index : Nat}
    {e : Seatbelt.PyError} (h : parse_subtype tokens index = .error e) :
    e ≠ .outOfFuel := by
  unfold parse_subtype at h
  split at h
  · rename_i hc
    cases h
    exact consume_error_ne hc
  · split at h
    · rename_i hc
      cases h
      exact consume_error_ne hc
    · split at h
      · rename_i hloop
        cases h
        exact subtypeItemsLoop_error_ne tokens _ _ _ _ _ (by omega) hloop
      · split at h
        · rename_i hc
          cases h
          exact consume_error_ne hc
        · cases h

theorem mkPolymorphicType_error_ne {fns : List Seatbelt.PureVirtualFunction}
    {ms : List Seatbelt.Member} {ims : List Seatbelt.Implementation}
    {e : Seatbelt.PyError} (h : mkPolymorphicType fns ms ims = .error e) :
    e ≠ .outOfFuel := by
  unfold mkPolymorphicType at h
  split at h
  · cases h
    simp
  · split at h
    · cases h
      simp
    · split at h
      · cases h
        simp
      · cases h

theorem baseMembersLoop_ok (tokens : List Seatbelt.Token) :
    ∀ (fuel index members ms j),
      baseMembersLoop tokens fuel index members = .ok (ms, j) → index ≤ j := by
  intro fuel
  induction fuel with
  | zero =>
    intro index members ms j h
    simp only [baseMembersLoop] at h
    cases h
  | succ n ih =>
    intro index members ms j h
    simp only [baseMembersLoop] at h
    split at h
    · cases h
    · split at h
      · split at h
        · cases h
        · rename_i hm
          have h1 := parse_data_member_ok hm
          have h2 := ih _ _ _ _ h
          omega
      · cases h
        omega

theorem baseMembersLoop_error_ne (tokens : List Seatbelt.Token) :
    ∀ (fuel index members e),
      tokens.length - index < fuel →
      baseMembersLoop tokens fuel index members = .error e → e ≠ .outOfFuel := by
  intro fuel
  induction fuel with
  | zero =>
    intro index members e hf h
    omega
  | succ n ih =>
    intro index members e hf h
    simp only [baseMembersLoop] at h
    split at h
    · rename_i hc
      cases h
      have := current_error_eq hc
      simp [this]
    · rename_i cur hc
      split at h
      · split at h
        · rename_i hm
          cases h
          exact parse_data_member_error_ne hm
        · rename_i hm
          have h1 := parse_data_member_ok hm
          have h2 := current_ok_lt hc
          exact ih _ _ _ (by omega) h
      · cases h

end Seatbelt

namespace Seatbelt

theorem functionsLoop_ok (tokens : List Seatbelt.Token) :
    ∀ (fuel index functions fs j),
      functionsLoop tokens fuel index functions = .ok (fs, j) → index ≤ j := by
  intro fuel
  induction fuel with
  | zero =>
    intro index functions fs j h
    simp only [functionsLoop] at h
    cases h
  | succ n ih =>
    intro index functions fs j h
    simp only [functionsLoop] at h
    split at h
    · cases h
    · split at h
      · split at h
        · cases h
        · rename_i hc1
          split at h
          · cases h
          · rename_i hc2
            split at h
            · cases h
            · rename_i hc3
              obtain ⟨e1, -⟩ := consume_ok hc1
              obtain ⟨e2, -⟩ := consume_ok hc2
              obtain ⟨e3, -⟩ := consume_ok hc3
              have h2 := ih _ _ _ _ h
              omega
      · cases h
        omega

theorem functionsLoop_error_ne (tokens : List Seatbelt.Token) :
    ∀ (fuel index functions e),
      tokens.length - index < fuel →
      functionsLoop tokens fuel index functions = .error e → e ≠ .outOfFuel := by
  intro fuel
  induction fuel with
  | zero =>
    intro index functions e hf h
    omega
  | succ n ih =>
    intro index functions e hf h
    simp only [functionsLoop] at h
    split at h
    · rename_i hc
      cases h
      have := current_error_eq hc
      simp [this]
    · rename_i cur hc
      split at h
      · split at h
        · rename_i hc1
          cases h
          exact consume_error_ne hc1
        · rename_i hc1
          split at h
          · rename_i hc2
            cases h
            exact consume_error_ne hc2
          · rename_i hc2
            split at h
            · rename_i hc3
              cases h
              exact consume_error_ne hc3
            · rename_i hc3
              obtain ⟨e1, -⟩ := consume_ok hc1
              obtain ⟨e2, -⟩ := consume_ok hc2
              obtain ⟨e3, -⟩ := consume_ok hc3
              have h2 := current_ok_lt hc
              exact ih _ _ _ (by omega) h
      · cases h

theorem pipeLoop_ok (tokens : List Seatbelt.Token)
    (functions : List Seatbelt.PureVirtualFunction) :
    ∀ (fuel index sub_types st j),
      pipeLoop tokens functions fuel index sub_types = .ok (st, j) → index ≤ j := by
  intro fuel
  induction fuel with
  | zero =>
    intro index sub_types st j h
    simp only [pipeLoop] at h
    cases h
  | succ n ih =>
    intro index sub_types st j h
    simp only [pipeLoop] at h
    split at h
    · cases h
    · split at h
      · split at h
        · cases h
        · rename_i hsub
          split at h
          · cases h
          · have h1 := parse_subtype_ok hsub
            have h2 := ih _ _ _ _ h
            omega
      · cases h
        omega

theorem pipeLoop_error_ne (tokens : List Seatbelt.Token)
    (functions : List Seatbelt.PureVirtualFunction) :
    ∀ (fuel index sub_types e),
      tokens.length - index < fuel →
      pipeLoop tokens functions fuel index sub_types = .error e → e ≠ .outOfFuel := by
  intro fuel
  induction fuel with
  | zero =>
    intro index sub_types e hf h
    omega
  | succ n ih =>
    intro index sub_types e hf h
    simp only [pipeLoop] at h
    split at h
    · rename_i hc
      cases h
      have := current_error_eq hc
      simp [this]
    · rename_i cur hc
      split at h
      · split at h
        · rename_i hsub
          cases h
          exact parse_subtype_error_ne hsub
        · rename_i hsub
          split at h
          · rename_i hmk
            cases h
            exact mkPolymorphicType_error_ne hmk
          · have h1 := parse_subtype_ok hsub
            have h2 := current_ok_lt hc
            exact ih _ _ _ (by omega) h
      · cases h

end Seatbelt

namespace Seatbelt

theorem fileLoop_error_ne (tokens : List Seatbelt.Token) :
    ∀ (fuel index tds ats e),
      tokens.length - index < fuel →
      fileLoop tokens fuel index tds ats = .error e → e ≠ .outOfFuel := by
  intro fuel
  induction fuel with
  | zero =>
    intro index tds ats e hf h
    omega
  | succ n ih =>
    intro index tds ats e hf h
    simp only [fileLoop] at h
    split at h
    · cases h
    · rename_i heoi
      have hlt : index < tokens.length := eoi_false_lt (eq_false_of_ne_true heoi)
      split at h
      · rename_i hc
        cases h
        have := current_error_eq hc
        simp [this]
      · rename_i cur hc
        split at h
        · -- TYPE
          split at h
          · rename_i hc1
            cases h
            exact consume_error_ne hc1
          · rename_i hc1
            split at h
            · rename_i hc2
              cases h
              exact consume_error_ne hc2
            · rename_i hc2
              obtain ⟨e1, -⟩ := consume_ok hc1
              obtain ⟨e2, -⟩ := consume_ok hc2
              exact ih _ _ _ _ (by omega) h
        · -- IDENTIFIER
          split at h
          · rename_i hc1
            cases h
            exact consume_error_ne hc1
          · rename_i hc1
            split at h
            · rename_i hc2
              cases h
              exact consume_error_ne hc2
            · rename_i hc2
              split at h
              · rename_i hbm
                cases h
                exact baseMembersLoop_error_ne tokens _ _ _ _ (by omega) hbm
              · rename_i hbm
                split at h
                · rename_i hfn
                  cases h
                  exact functionsLoop_error_ne tokens _ _ _ _ (by omega) hfn
                · rename_i hfn
                  split at h
                  · rename_i hc5
                    cases h
                    exact consume_error_ne hc5
                  · rename_i hc5
                    split at h
                    · rename_i hc6
                      cases h
                      exact consume_error_ne hc6
                    · rename_i hc6
                      split at h
                      · rename_i hsub
                        cases h
                        exact parse_subtype_error_ne hsub
                      · rename_i hsub
                        split at h
                        · rename_i hmk
                          cases h
                          exact mkPolymorphicType_error_ne hmk
                        · split at h
                          · rename_i hpipe
                            cases h
                            exact pipeLoop_error_ne tokens _ _ _ _ _ (by omega) hpipe
                          · rename_i hpipe
                            obtain ⟨e1, -⟩ := consume_ok hc1
                            obtain ⟨e2, -⟩ := consume_ok hc2
                            have e3 := baseMembersLoop_ok tokens _ _ _ _ _ hbm
                            have e4 := functionsLoop_ok tokens _ _ _ _ _ hfn
                            obtain ⟨e5, -⟩ := consume_ok hc5
                            obtain ⟨e6, -⟩ := consume_ok hc6
                            have e7 := parse_subtype_ok hsub
                            have e8 := pipeLoop_ok tokens _ _ _ _ _ _ hpipe
                            exact ih _ _ _ _ (by omega) h
        · -- STRING_LITERAL
          cases h
        · -- default
          cases h
          simp

end Seatbelt

namespace Seatbelt

/-! ### Validation lemmas for `PolymorphicType` construction -/

theorem sameNameSet_iff (a b : List String) :
    sameNameSet a b = true ↔ ∀ n, n ∈ a ↔ n ∈ b := by
  simp only [sameNameSet, Bool.and_eq_true, List.all_eq_true, decide_eq_true_eq]
  constructor
  · rintro ⟨h1, h2⟩ n
    exact ⟨fun hn => h1 n hn, fun hn => h2 n hn⟩
  · intro h
    exact ⟨fun n hn => (h n).1 hn, fun n hn => (h n).2 hn⟩

theorem mkPolymorphicType_ok {fns : List Seatbelt.PureVirtualFunction}
    {ms : List Seatbelt.Member} {ims : List Seatbelt.Implementation}
    {pt : Seatbelt.PolymorphicType} (h : mkPolymorphicType fns ms ims = .ok pt) :
    pt = ⟨fns, ms, ims⟩ ∧
    hasDuplicate (fns.map Seatbelt.PureVirtualFunction.name) = false ∧
    hasDuplicate (ims.map Seatbelt.Implementation.name) = false ∧
    sameNameSet (fns.map Seatbelt.PureVirtualFunction.name)
      (ims.map Seatbelt.Implementation.name) = true := by
  unfold mkPolymorphicType at h
  split at h
  · cases h
  · rename_i h1
    split at h
    · cases h
    · rename_i h2
      split at h
      · cases h
      · rename_i h3
        cases h
        refine ⟨rfl, by simpa using h1, by simpa using h2, by simpa using h3⟩

theorem mkPolymorphicType_dup_decl {fns : List Seatbelt.PureVirtualFunction}
    {ms : List Seatbelt.Member} {ims : List Seatbelt.Implementation}
    (h : hasDuplicate (fns.map Seatbelt.PureVirtualFunction.name) = true) :
    mkPolymorphicType fns ms ims = .error .duplicateDeclaration := by
  unfold mkPolymorphicType
  simp [h]

theorem mkPolymorphicType_dup_impl {fns : List Seatbelt.PureVirtualFunction}
    {ms : List Seatbelt.Member} {ims : List Seatbelt.Implementation}
    (h1 : hasDuplicate (fns.map Seatbelt.PureVirtualFunction.name) = false)
    (h2 : hasDuplicate (ims.map Seatbelt.Implementation.name) = true) :
    mkPolymorphicType fns ms ims = .error .duplicateImplementation := by
  unfold mkPolymorphicType
  simp [h1, h2]

theorem mkPolymorphicType_not_impl {fns : List Seatbelt.PureVirtualFunction}
    {ms : List Seatbelt.Member} {ims : List Seatbelt.Implementation}
    (h1 : hasDuplicate (fns.map Seatbelt.PureVirtualFunction.name) = false)
    (h2 : hasDuplicate (ims.map Seatbelt.Implementation.name) = false)
    (h3 : sameNameSet (fns.map Seatbelt.PureVirtualFunction.name)
      (ims.map Seatbelt.Implementation.name) = false) :
    mkPolymorphicType fns ms ims = .error .notAllImplemented := by
  unfold mkPolymorphicType
  simp [h1, h2, h3]

theorem mkPolymorphicType_error_of_not_same {fns : List Seatbelt.PureVirtualFunction}
    {ms : List Seatbelt.Member} {ims : List Seatbelt.Implementation}
    (h : sameNameSet (fns.map Seatbelt.PureVirtualFunction.name)
      (ims.map Seatbelt.Implementation.name) = false) :
    ∃ e, mkPolymorphicType fns ms ims = .error e := by
  unfold mkPolymorphicType
  by_cases hd1 : hasDuplicate (fns.map Seatbelt.PureVirtualFunction.name) = true
  · refine ⟨.duplicateDeclaration, ?_⟩
    simp [hd1]
  · by_cases hd2 : hasDuplicate (ims.map Seatbelt.Implementation.name) = true
    · refine ⟨.duplicateImplementation, ?_⟩
      simp [hd1, hd2]
    · refine ⟨.notAllImplemented, ?_⟩
      simp [hd1, hd2, h]

/-! ### The structural invariant and its preservation through `parse` -/

theorem implementsAllOps_of_mk {fns : List Seatbelt.PureVirtualFunction}
    {ms : List Seatbelt.Member} {ims : List Seatbelt.Implementation}
    {pt : Seatbelt.PolymorphicType} (h : mkPolymorphicType fns ms ims = .ok pt) :
    implementsAllOps pt := by
  obtain ⟨rfl, -, -, hs⟩ := mkPolymorphicType_ok h
  intro n
  exact ((sameNameSet_iff _ _).1 hs n).symm

theorem dictInsert_forall {α : Type} (P : α → Prop) (d : List (String × α))
    (k : String) (v : α) (hd : ∀ p ∈ d, P p.2) (hv : P v) :
    ∀ p ∈ dictInsert d k v, P p.2 := by
  intro p hp
  unfold dictInsert at hp
  split at hp
  · obtain ⟨q, hq, hqe⟩ := List.mem_map.1 hp
    by_cases hqk : q.1 = k
    · rw [if_pos hqk] at hqe
      cases hqe
      exact hv
    · rw [if_neg hqk] at hqe
      cases hqe
      exact hd _ hq
  · rcases List.mem_append.1 hp with hside | hside
    · exact hd p hside
    · rw [List.mem_singleton.1 hside]
      exact hv

theorem pipeLoop_ok_inv (tokens : List Seatbelt.Token)
    (functions : List Seatbelt.PureVirtualFunction) :
    ∀ (fuel index sub_types st j),
      (∀ p ∈ sub_types, implementsAllOps p.2) →
      pipeLoop tokens functions fuel index sub_types = .ok (st, j) →
      ∀ p ∈ st, implementsAllOps p.2 := by
  intro fuel
  induction fuel with
  | zero =>
    intro index sub_types st j hinv h
    simp only [pipeLoop] at h
    cases h
  | succ n ih =>
    intro index sub_types st j hinv h
    simp only [pipeLoop] at h
    split at h
    · cases h
    · split at h
      · split at h
        · cases h
        · split at h
          · cases h
          · rename_i hmk
            exact ih _ _ _ _
              (dictInsert_forall _ _ _ _ hinv (implementsAllOps_of_mk hmk)) h
      · cases h
        exact hinv

theorem fileLoop_ok_inv (tokens : List Seatbelt.Token) :
    ∀ (fuel index tds ats tds2 ats2 post j),
      (∀ a ∈ ats, ∀ p ∈ a.2.sub_types, implementsAllOps p.2) →
      fileLoop tokens fuel index tds ats = .ok (tds2, ats2, post, j) →
      ∀ a ∈ ats2, ∀ p ∈ a.2.sub_types, implementsAllOps p.2 := by
  intro fuel
  induction fuel with
  | zero =>
    intro index tds ats tds2 ats2 post j hinv h
    simp only [fileLoop] at h
    cases h
  | succ n ih =>
    intro index tds ats tds2 ats2 post j hinv h
    simp only [fileLoop] at h
    split at h
    · cases h
      exact hinv
    · split at h
      · cases h
      · split at h
        · -- TYPE
          split at h
          · cases h
          · split at h
            · cases h
            · exact ih _ _ _ _ _ _ _ hinv h
        · -- IDENTIFIER
          split at h
          · cases h
          · split at h
            · cases h
            · split at h
              · cases h
              · split at h
                · cases h
                · split at h
                  · cases h
                  · split at h
                    · cases h
                    · split at h
                      · cases h
                      · split at h
                        · cases h
                        · rename_i hmk
                          split at h
                          · cases h
                          · rename_i hpipe
                            exact ih _ _ _ _ _ _ _
                              (dictInsert_forall
                                (fun a : Seatbelt.AbstractType => ∀ p ∈ a.sub_types, implementsAllOps p.2) _ _ _ hinv
                                (pipeLoop_ok_inv tokens _ _ _ _ _ _
                                  (dictInsert_forall implementsAllOps [] _ _
                                    (fun p hp => absurd hp (List.not_mem_nil p))
                                    (implementsAllOps_of_mk hmk))
                                  hpipe)) h
        · -- STRING_LITERAL
          cases h
          exact hinv
        · cases h

theorem parse_ok_inv {tokens : List Seatbelt.Token} {gd : Seatbelt.GeneratorDescription}
    (h : parse tokens = .ok gd) :
    ∀ a ∈ gd.abstract_types, ∀ p ∈ a.2.sub_types, implementsAllOps p.2 := by
  unfold parse at h
  split at h
  · cases h
  · split at h
    split at h
    · cases h
    · split at h
      · cases h
      · rename_i hfl _
        cases h
        exact fileLoop_ok_inv tokens _ _ _ _ _ _ _ _ (by intro a ha; cases ha) hfl

end Seatbelt

namespace Seatbelt

theorem hasDuplicate_pair (f : String) : hasDuplicate [f, f] = true := by
  have h2 : List.dedup [f, f] = List.dedup [f] :=
    List.dedup_cons_of_mem (List.mem_singleton.mpr rfl)
  have h1 : List.dedup [f] = f :: List.dedup [] :=
    List.dedup_cons_of_not_mem (List.not_mem_nil f)
  simp [hasDuplicate, h2, h1]

/-! ### Claims -/

/-- C1: a variant only constructs when the set of its implementation names
exactly equals the owning abstract type's operation-declaration names; a
variant whose name set differs fails at construction (with
`IncompleteOrExcessImplementation`, i.e. `notAllImplemented`, whenever the
duplicate checks pass), and every variant inside any `parse` result satisfies
the invariant — no violating AST is producible by `parse`. -/
theorem claim_C1_variant_invariant (fns : List Seatbelt.PureVirtualFunction)
    (ms : List Seatbelt.Member) (ims : List Seatbelt.Implementation) :
    (∀ pt, mkPolymorphicType fns ms ims = .ok pt →
      pt = ⟨fns, ms, ims⟩ ∧ implementsAllOps pt) ∧
    (sameNameSet (fns.map Seatbelt.PureVirtualFunction.name)
        (ims.map Seatbelt.Implementation.name) = false →
      (∃ e, mkPolymorphicType fns ms ims = .error e) ∧
      (hasDuplicate (fns.map Seatbelt.PureVirtualFunction.name) = false →
       hasDuplicate (ims.map Seatbelt.Implementation.name) = false →
       mkPolymorphicType fns ms ims = .error .notAllImplemented)) ∧
    (∀ tokens gd, parse tokens = .ok gd →
      ∀ a ∈ gd.abstract_types, ∀ p ∈ a.2.sub_types, implementsAllOps p.2) := by
  refine ⟨?_, ?_, ?_⟩
  · intro pt h
    exact ⟨(mkPolymorphicType_ok h).1, implementsAllOps_of_mk h⟩
  · intro hs
    exact ⟨mkPolymorphicType_error_of_not_same hs,
      fun h1 h2 => mkPolymorphicType_not_impl h1 h2 hs⟩
  · intro tokens gd h
    exact parse_ok_inv h

/-- C1 witness: a variant implementing an undeclared operation `render`
fails with the set-equality error. -/
theorem claim_C1_witness :
    mkPolymorphicType [] [] [⟨"render", "body"⟩] = .error .notAllImplemented :=
  ((claim_C1_variant_invariant [] [] [⟨"render", "body"⟩]).2.1
    (by decide)).2 (by decide) (by decide)

/-- C2: the constructor's checks run in a fixed order — duplicate operation
declarations, then duplicate implementations, then set equality — and the
first violated check determines the error. -/
theorem claim_C2_validation_order (fns : List Seatbelt.PureVirtualFunction)
    (ms : List Seatbelt.Member) (ims : List Seatbelt.Implementation) :
    (hasDuplicate (fns.map Seatbelt.PureVirtualFunction.name) = true →
      mkPolymorphicType fns ms ims = .error .duplicateDeclaration) ∧
    (hasDuplicate (fns.map Seatbelt.PureVirtualFunction.name) = false →
     hasDuplicate (ims.map Seatbelt.Implementation.name) = true →
      mkPolymorphicType fns ms ims = .error .duplicateImplementation) ∧
    (hasDuplicate (fns.map Seatbelt.PureVirtualFunction.name) = false →
     hasDuplicate (ims.map Seatbelt.Implementation.name) = false →
     sameNameSet (fns.map Seatbelt.PureVirtualFunction.name)
        (ims.map Seatbelt.Implementation.name) = false →
      mkPolymorphicType fns ms ims = .error .notAllImplemented) :=
  ⟨fun h1 => mkPolymorphicType_dup_decl h1,
   fun h1 h2 => mkPolymorphicType_dup_impl h1 h2,
   fun h1 h2 h3 => mkPolymorphicType_not_impl h1 h2 h3⟩

/-- C2 witness: an input with both a duplicate implementation name and a
missing implementation reports `duplicateImplementation`, never
`notAllImplemented`. -/
theorem claim_C2_witness :
    mkPolymorphicType [⟨"a", none⟩] [] [⟨"b", "x"⟩, ⟨"b", "y"⟩] =
      .error .duplicateImplementation :=
  (claim_C2_validation_order [⟨"a", none⟩] [] [⟨"b", "x"⟩, ⟨"b", "y"⟩]).2.1
    (by decide) (by decide)

/-- C3 counterexample: two operation declarations both named `area` followed
by a malformed first variant — `parse` reports the variant's own parse error
(an unexpected token), not the duplicate-declaration error, so the duplicate
check does NOT run before the first variant is parsed. -/
theorem claim_C3_counterexample :
    parse dupDeclMalformedVariantTokens =
      .error (.unexpectedTokenType .IDENTIFIER .RIGHT_PARENTHESIS ")") ∧
    parse dupDeclMalformedVariantTokens ≠ .error .duplicateDeclaration := by
  refine ⟨rfl, ?_⟩
  intro h
  rw [show parse dupDeclMalformedVariantTokens =
    .error (.unexpectedTokenType .IDENTIFIER .RIGHT_PARENTHESIS ")") from rfl] at h
  cases h

/-- C3 amended: duplicate operation-declaration names always make variant
construction fail with `duplicateDeclaration` (so the error is raised when the
first variant is constructed, before it is stored and before any further
variant is parsed); concretely, with a well-formed first variant `parse`
reports `duplicateDeclaration`. -/
theorem claim_C3_amended (f : String) (rt1 rt2 : Option String)
    (ms : List Seatbelt.Member) (ims : List Seatbelt.Implementation) :
    mkPolymorphicType [⟨f, rt1⟩, ⟨f, rt2⟩] ms ims = .error .duplicateDeclaration ∧
    parse dupDeclGoodVariantTokens = .error .duplicateDeclaration :=
  ⟨mkPolymorphicType_dup_decl (hasDuplicate_pair f), rfl⟩

/-- C4 counterexample: with the cursor standing on the explicit end-of-input
marker — a position past the last consumable token in the spec's sense —
`current` returns that token and does not fail with `unexpectedEndOfInput`. -/
theorem claim_C4_counterexample :
    current [⟨.END_OF_INPUT, ""⟩] 0 = .ok ⟨.END_OF_INPUT, ""⟩ ∧
    is_end_of_input [⟨.END_OF_INPUT, ""⟩] 0 = true ∧
    current [⟨.END_OF_INPUT, ""⟩] 0 ≠ .error .unexpectedEndOfInput := by
  refine ⟨rfl, rfl, ?_⟩
  intro h
  rw [show current [⟨.END_OF_INPUT, ""⟩] 0 = .ok ⟨.END_OF_INPUT, ""⟩ from rfl] at h
  cases h

/-- C4 amended: `current` returns the token whenever the position is in
bounds (even on the end-of-input marker) and fails with a raw index error —
not `unexpectedEndOfInput` — when out of bounds; it is `consume` that fails
with `unexpectedEndOfInput` whenever the position is past the last consumable
token, including on the end-of-input marker. -/
theorem claim_C4_amended (tokens : List Seatbelt.Token) (index : Nat) :
    (∀ h : index < tokens.length, current tokens index = .ok (tokens.get ⟨index, h⟩)) ∧
    (tokens.length ≤ index → current tokens index = .error .indexError) ∧
    (∀ ty, is_end_of_input tokens index = true →
      consume tokens index ty = .error .unexpectedEndOfInput) := by
  refine ⟨?_, ?_, ?_⟩
  · intro h
    unfold current
    rw [List.get?_eq_get h]
  · intro h
    unfold current
    rw [List.get?_eq_none.2 h]
  · intro ty h
    unfold consume
    simp [h]

/-- C4 witness: concrete instances of the three amended conjuncts. -/
theorem claim_C4_witness :
    current [⟨.IDENTIFIER, "x"⟩, ⟨.END_OF_INPUT, ""⟩] 1 = .ok ⟨.END_OF_INPUT, ""⟩ ∧
    current [⟨.IDENTIFIER, "x"⟩, ⟨.END_OF_INPUT, ""⟩] 5 = .error .indexError ∧
    consume [⟨.IDENTIFIER, "x"⟩, ⟨.END_OF_INPUT, ""⟩] 1 .IDENTIFIER =
      .error .unexpectedEndOfInput :=
  ⟨(claim_C4_amended [⟨.IDENTIFIER, "x"⟩, ⟨.END_OF_INPUT, ""⟩] 1).1 (by decide),
   (claim_C4_amended [⟨.IDENTIFIER, "x"⟩, ⟨.END_OF_INPUT, ""⟩] 5).2.1 (by decide),
   (claim_C4_amended [⟨.IDENTIFIER, "x"⟩, ⟨.END_OF_INPUT, ""⟩] 1).2.2 .IDENTIFIER (by decide)⟩

end Seatbelt

namespace Seatbelt

/-- C5: every stored opaque text — member type, operation return type,
implementation body, type-definition body, prelude and postlude — is the raw
string-literal lexeme with exactly its first and last character removed and
surrounding whitespace trimmed (`stripInner`); an operation return type that
is empty after trimming is stored as `none`, never as the empty string. -/
theorem claim_C5_opaque_text (n s f b p tn td q : String) :
    parse_data_member [⟨.IDENTIFIER, n⟩, ⟨.STRING_LITERAL, s⟩] 0 =
      .ok (⟨n, false, stripInner s⟩, 2) ∧
    functionsLoop [⟨.FUNCTION, "function"⟩, ⟨.IDENTIFIER, f⟩, ⟨.STRING_LITERAL, s⟩,
        ⟨.RIGHT_PARENTHESIS, ")"⟩] 5 0 [] =
      .ok ([⟨f, if (stripInner s).length > 0 then some (stripInner s) else none⟩], 3) ∧
    parse_implementation [⟨.IMPLEMENT, "implement"⟩, ⟨.IDENTIFIER, f⟩,
        ⟨.STRING_LITERAL, b⟩] 0 =
      .ok (⟨f, stripInner b⟩, 3) ∧
    parse [⟨.STRING_LITERAL, p⟩, ⟨.TYPE, "type"⟩, ⟨.IDENTIFIER, tn⟩, ⟨.STRING_LITERAL, td⟩,
        ⟨.STRING_LITERAL, q⟩, ⟨.END_OF_INPUT, ""⟩] =
      .ok ⟨stripInner p, [(tn, stripInner td)], [], stripInner q⟩ ∧
    stripInner "\"  int x;  \"" = "int x;" ∧
    functionsLoop [⟨.FUNCTION, "function"⟩, ⟨.IDENTIFIER, f⟩, ⟨.STRING_LITERAL, "\"  \""⟩,
        ⟨.RIGHT_PARENTHESIS, ")"⟩] 5 0 [] = .ok ([⟨f, none⟩], 3) :=
  ⟨rfl, rfl, rfl, rfl, rfl, rfl⟩

/-- C6: once a postlude string literal is consumed at file level, any
remaining non-end-of-input token makes `parse` fail with the
trailing-content error, while a postlude followed only by end-of-input
succeeds. -/
theorem claim_C6_postlude (p q : String) (t : Seatbelt.Token)
    (h : t.type_ ≠ .END_OF_INPUT) :
    parse [⟨.STRING_LITERAL, p⟩, ⟨.STRING_LITERAL, q⟩, t, ⟨.END_OF_INPUT, ""⟩] =
      .error .postludeNotLast ∧
    parse [⟨.STRING_LITERAL, p⟩, ⟨.STRING_LITERAL, q⟩, ⟨.END_OF_INPUT, ""⟩] =
      .ok ⟨stripInner p, [], [], stripInner q⟩ := by
  constructor
  · obtain ⟨ty, lx⟩ := t
    cases ty <;> first | rfl | exact absurd rfl h
  · rfl

/-- C6 witness: a concrete postlude followed by one more token. -/
theorem claim_C6_witness :
    parse [⟨.STRING_LITERAL, "\"p\""⟩, ⟨.STRING_LITERAL, "\"q\""⟩, ⟨.TYPE, "type"⟩,
      ⟨.END_OF_INPUT, ""⟩] = .error .postludeNotLast :=
  (claim_C6_postlude "\"p\"" "\"q\"" ⟨.TYPE, "type"⟩ (by decide)).1

/-- C7: two variants with the same name parse without error and the variants
mapping keeps exactly one entry for that name, holding the later variant (the
memberless one); the earlier variant — which `parse_subtype` shows carried a
member — is silently overwritten. -/
theorem claim_C7_duplicate_variant_overwrite :
    parse dupVariantTokens =
      .ok ⟨"", [], [("A", ⟨[("V", ⟨[], [], []⟩)], [], []⟩)], ""⟩ ∧
    parse_subtype dupVariantTokens 4 = .ok (("V", [⟨"x", false, "t"⟩], []), 9) :=
  ⟨rfl, rfl⟩

/-- C8: on a multi-entry input, the parsed `GeneratorDescription` preserves
source declaration order in `type_definitions`, in each abstract type's
shared members, operations and variants, and in the abstract-types mapping
itself. -/
theorem claim_C8_order_preservation :
    parse multiEntryTokens =
      .ok ⟨"p",
        [("T1", "a"), ("T2", "b")],
        [("S", ⟨[("V1", ⟨[⟨"f1", some "r1"⟩, ⟨"f2", none⟩],
                  [⟨"w", false, "wt"⟩],
                  [⟨"f1", "b1"⟩, ⟨"f2", "b2"⟩]⟩),
                 ("V2", ⟨[⟨"f1", some "r1"⟩, ⟨"f2", none⟩],
                  [],
                  [⟨"f2", "b3"⟩, ⟨"f1", "b4"⟩]⟩)],
               [⟨"m1", false, "t1"⟩, ⟨"m2", true, "t2"⟩],
               [⟨"f1", some "r1"⟩, ⟨"f2", none⟩]⟩),
         ("S2", ⟨[("W", ⟨[], [], []⟩)], [], []⟩)],
        "q"⟩ :=
  rfl

/-- C9: `parse` terminates on every finite token sequence — each loop strictly
advances the cursor, so the fuel `tokens.length + 1` that `parse` hands every
loop is never exhausted and the `outOfFuel` marker is unreachable. -/
theorem claim_C9_parse_terminates (tokens : List Seatbelt.Token) :
    parse tokens ≠ .error .outOfFuel := by
  intro h
  unfold parse at h
  split at h
  · rename_i hc
    cases h
    have := current_error_eq hc
    simp at this
  · split at h
    split at h
    · rename_i hfl
      cases h
      exact fileLoop_error_ne tokens _ _ _ _ _ (by omega) hfl rfl
    · split at h
      · cases h
      · cases h

/-- C10: on the empty token sequence `parse` fails through the unchecked list
indexing inside `current` — modelled as `indexError` — because it reads the
current token to test for a prelude before any end-of-input check; the failure
is not the documented `unexpectedEndOfInput` parser error. -/
theorem claim_C10_empty_input_index_error :
    parse ([] : List Seatbelt.Token) = .error .indexError ∧
    parse ([] : List Seatbelt.Token) ≠ .error .unexpectedEndOfInput := by
  refine ⟨rfl, ?_⟩
  intro h
  rw [show parse ([] : List Seatbelt.Token) = .error .indexError from rfl] at h
  cases h

end Seatbelt
